import Mathlib

/-!
Verification of the virtual file routing layer: a session-scoped in-memory
file store published by a page context (`app-utils.ts`) and consumed by a
network-intercepting service worker (`sw.js` / `sw-utils.js`).

The embedding translates the JavaScript/TypeScript sources into executable
Lean definitions.  JavaScript strings are modelled by Lean `String` (a list
of characters); the string primitives used by the sources
(`split`, `join`, `endsWith`, `startsWith`, `toLowerCase`) are re-implemented
by structural recursion over the character list so that every definition
evaluates by kernel reduction.  A JS `Map` is modelled as an association
list with `Map.set` replace-in-place-or-append semantics.
-/

/-! ### JavaScript string primitives -/

/-- Models `Array.prototype.join(sep)` for an array of strings. -/
def jsJoin (sep : String) : List String → String
  | [] => ""
  | s :: rest => rest.foldl (fun acc piece => acc ++ sep ++ piece) s

/-- Core of `String.prototype.split(sep)`: split a character list at every
occurrence of the separator, keeping empty pieces (as JS does). -/
def splitChars (sep : Char) : List Char → List (List Char)
  | [] => [[]]
  | c :: rest =>
    let pieces := splitChars sep rest
    if c == sep then [] :: pieces
    else
      match pieces with
      | [] => [[c]]
      | piece :: more => (c :: piece) :: more

/-- Models `String.prototype.split(sep)` with a single-character separator. -/
def jsSplit (s : String) (sep : Char) : List String :=
  (splitChars sep s.data).map String.mk

/-- Does the character list `pattern` occur at the head of `s`? -/
def charsBeginWith : List Char → List Char → Bool
  | [], _ => true
  | _ :: _, [] => false
  | p :: ps, c :: cs => p == c && charsBeginWith ps cs

/-- Models `String.prototype.startsWith(pattern)`. -/
def jsStartsWith (s pattern : String) : Bool :=
  charsBeginWith pattern.data s.data

/-- Models `String.prototype.endsWith(pattern)`. -/
def jsEndsWith (s pattern : String) : Bool :=
  charsBeginWith pattern.data.reverse s.data.reverse

/-- ASCII lower-casing of one character, as `String.prototype.toLowerCase`
acts on the ASCII range (the only range the MIME table exercises). -/
def asciiToLower (c : Char) : Char :=
  if 65 ≤ c.toNat && c.toNat ≤ 90 then Char.ofNat (c.toNat + 32) else c

/-- Models `String.prototype.toLowerCase` (ASCII range). -/
def jsToLowerCase (s : String) : String :=
  String.mk (s.data.map asciiToLower)

/-- Models the JS expression `declared || fallback` on an optional string
field: `undefined` and the empty string are falsy and select the fallback. -/
def jsTruthyOrElse (declared : Option String) (fallback : String) : String :=
  match declared with
  | some value => if value = "" then fallback else value
  | none => fallback

/-! ### JS `Map` model (association list, insertion order preserved) -/

/-- Models `Map.prototype.get`. -/
def mapGet {α : Type} (entries : List (String × α)) (key : String) : Option α :=
  match entries with
  | [] => none
  | kv :: rest => if kv.1 == key then some kv.2 else mapGet rest key

/-- Models `Map.prototype.set`: replace the value at an existing key in
place (keeping its insertion position), otherwise append a new entry. -/
def mapSet {α : Type} (entries : List (String × α)) (key : String) (value : α) :
    List (String × α) :=
  match entries with
  | [] => [(key, value)]
  | kv :: rest => if kv.1 == key then (key, value) :: rest else kv :: mapSet rest key value

/-- Models `Array.from(map.keys())`. -/
def mapKeys {α : Type} (entries : List (String × α)) : List String :=
  entries.map (fun kv => kv.1)

/-- Models `Array.from(map.values())`. -/
def mapValues {α : Type} (entries : List (String × α)) : List α :=
  entries.map (fun kv => kv.2)

/-! ### Data model (`app-utils.ts` type `VirtualFileDescriptor`, shared as
the wire format of the announcement channel) -/

/-- One virtual file record: `path`, `content`, optional declared MIME
`type` (`none` models an absent field). -/
structure VirtualFileDescriptor where
  path : String
  content : String
  type : Option String
deriving DecidableEq

/-- The observable part of a `Response` built by the service worker:
status, the explicitly set `Content-Type` header (if any), and the body. -/
structure Response where
  status : Nat
  contentType : Option String
  body : String
deriving DecidableEq

/-- A session's file table (`Map` from normalized path to descriptor). -/
abbrev VirtualFileStore := List (String × VirtualFileDescriptor)

/-- The router's process-wide table from session id to file table. -/
abbrev SessionTable := List (String × VirtualFileStore)

/-! ### `sw-utils.js` -/

structure ServiceWorkerConstants where
  broadcastChannelName : String
  virtualNamespacePrefixValue : String
  pingSegment : String
  listSegment : String
  pingResponseBody : String
  pingResponseContentType : String
  listResponseContentType : String
  defaultIndexFileName : String
  defaultMimeType : String
  sessionNotFoundMessage : String
  notFoundMessagePrefixValue : String

/-- The frozen constant object of `sw-utils.js` (the two `...Prefix` fields
carry a `Value` suffix in this embedding). -/
def SERVICE_WORKER_CONSTANTS : ServiceWorkerConstants where
  broadcastChannelName := "vfs"
  virtualNamespacePrefixValue := "/virtual/"
  pingSegment := "__ping"
  listSegment := "__list"
  pingResponseBody := "ok"
  pingResponseContentType := "text/plain"
  listResponseContentType := "application/json"
  defaultIndexFileName := "index.js"
  defaultMimeType := "text/plain"
  sessionNotFoundMessage := "Session not found"
  notFoundMessagePrefixValue := "Not found: "

/-- `MIME_TYPE_BY_EXTENSION` of `sw-utils.js`; `Object.entries` iterates in
this insertion order. -/
def MIME_TYPE_BY_EXTENSION : List (String × String) :=
  [(".js", "text/javascript"),
   (".mjs", "text/javascript"),
   (".json", "application/json"),
   (".css", "text/css"),
   (".html", "text/html")]

/-- `determineMimeTypeFromPath` of `sw-utils.js`: first entry whose
extension is a (case-sensitive) suffix of the path, else `text/plain`. -/
def determineMimeTypeFromPath (virtualFilePath : String) : String :=
  match MIME_TYPE_BY_EXTENSION.find? (fun entry => jsEndsWith virtualFilePath entry.1) with
  | some entry => entry.2
  | none => SERVICE_WORKER_CONSTANTS.defaultMimeType

/-- `normalizeVirtualFilePath` of `sw-utils.js`: `String(raw || "")` is the
identity on strings, `.replace(/^\/+/, "")` drops every leading slash, and
the template literal prepends one `/`. -/
def normalizeVirtualFilePath (rawVirtualFilePath : String) : String :=
  let trimmedLeadingSlashes := rawVirtualFilePath.data.dropWhile (fun c => c == '/')
  "/" ++ String.mk trimmedLeadingSlashes

/-- `createVirtualFileStoreMap` of `sw-utils.js` (the `Array.isArray` guard
is vacuous in this typed embedding, the argument is always a list). -/
def createVirtualFileStoreMap (fileDescriptors : List VirtualFileDescriptor) :
    VirtualFileStore :=
  fileDescriptors.foldl
    (fun virtualFileStoreMap fileDescriptor =>
      mapSet virtualFileStoreMap (normalizeVirtualFilePath fileDescriptor.path) fileDescriptor)
    []

/-- `isVirtualNamespacePath` of `sw-utils.js`. -/
def isVirtualNamespacePath (pathname : String) : Bool :=
  jsStartsWith pathname SERVICE_WORKER_CONSTANTS.virtualNamespacePrefixValue

/-- `isPingRequest` of `sw-utils.js` (`pathSegments[0]` is only read after
the length check, so the `getD` default is never the deciding value). -/
def isPingRequest (pathSegments : List String) : Bool :=
  pathSegments.length == 1 && pathSegments.getD 0 "" == SERVICE_WORKER_CONSTANTS.pingSegment

/-- `isListRequest` of `sw-utils.js`. -/
def isListRequest (pathSegments : List String) : Bool :=
  pathSegments.length == 1 && pathSegments.getD 0 "" == SERVICE_WORKER_CONSTANTS.listSegment

/-- `buildNotFoundMessage` of `sw-utils.js`. -/
def buildNotFoundMessage (virtualFilePath : String) : String :=
  SERVICE_WORKER_CONSTANTS.notFoundMessagePrefixValue ++ virtualFilePath

/-! ### JSON serialization (`JSON.stringify` for the list payload shape) -/

/-- One lowercase hexadecimal digit. -/
def hexDigitChar (n : Nat) : Char :=
  Char.ofNat (if n < 10 then 48 + n else 87 + (n % 16))

/-- `JSON.stringify` escaping of a single character inside a string. -/
def jsonEscapeChar (c : Char) : String :=
  if c == '"' then "\\\""
  else if c == '\\' then "\\\\"
  else if c == '\n' then "\\n"
  else if c == '\r' then "\\r"
  else if c == '\t' then "\\t"
  else if c.toNat == 8 then "\\b"
  else if c.toNat == 12 then "\\f"
  else if c.toNat < 32 then
    "\\u00" ++ String.mk [hexDigitChar (c.toNat / 16), hexDigitChar (c.toNat % 16)]
  else String.mk [c]

/-- `JSON.stringify` of a string value. -/
def jsonQuote (s : String) : String :=
  "\"" ++ String.join (s.data.map jsonEscapeChar) ++ "\""

/-- `JSON.stringify` of the object literal
`\x7bid, count, keys\x7d` built by `createListResponse` (fields serialized
in insertion order). -/
def jsonStringifyListPayload (id : String) (count : Nat) (keys : List String) : String :=
  "\x7b\"id\":" ++ jsonQuote id ++ ",\"count\":" ++ toString count ++
    ",\"keys\":[" ++ jsJoin "," (keys.map jsonQuote) ++ "]\x7d"

/-! ### `sw.js` — the virtual router -/

/-- `createPingResponse` of `sw.js`. -/
def createPingResponse : Response where
  status := 200
  contentType := some SERVICE_WORKER_CONSTANTS.pingResponseContentType
  body := SERVICE_WORKER_CONSTANTS.pingResponseBody

/-- `createListResponse` of `sw.js`: `virtualFileStore` is the result of the
session lookup (`none` models `undefined`, which is falsy; a present map,
even an empty one, is truthy). -/
def createListResponse (virtualFileSessionIdentifier : String)
    (virtualFileStore : Option VirtualFileStore) : Response :=
  let availableFilePaths :=
    match virtualFileStore with
    | some store => mapKeys store
    | none => []
  { status := 200
    contentType := some SERVICE_WORKER_CONSTANTS.listResponseContentType
    body := jsonStringifyListPayload virtualFileSessionIdentifier
      availableFilePaths.length availableFilePaths }

/-- `createSessionNotFoundResponse` of `sw.js` (no headers are set). -/
def createSessionNotFoundResponse : Response where
  status := 404
  contentType := none
  body := SERVICE_WORKER_CONSTANTS.sessionNotFoundMessage

/-- `buildRequestedVirtualFilePath` of `sw.js`. -/
def buildRequestedVirtualFilePath (virtualFilePathSegments : List String) : String :=
  let joinedVirtualFilePath := "/" ++ jsJoin "/" virtualFilePathSegments
  if !(jsEndsWith joinedVirtualFilePath "/") then
    joinedVirtualFilePath
  else
    joinedVirtualFilePath ++ SERVICE_WORKER_CONSTANTS.defaultIndexFileName

/-- The candidate loop of `handleVirtualRequest`: try each candidate path
against the store; on the first hit answer `200` with the stored content and
the declared-or-inferred content type; after the last miss answer `404`
naming the originally requested path. -/
def respondWithFirstMatchingCandidate (virtualFileStore : VirtualFileStore)
    (candidateVirtualFilePaths : List String) (requestedVirtualFilePath : String) :
    Response :=
  match candidateVirtualFilePaths with
  | [] =>
    { status := 404
      contentType := none
      body := buildNotFoundMessage requestedVirtualFilePath }
  | candidateVirtualFilePath :: remainingCandidates =>
    match mapGet virtualFileStore candidateVirtualFilePath with
    | none =>
      respondWithFirstMatchingCandidate virtualFileStore remainingCandidates
        requestedVirtualFilePath
    | some virtualFileDescriptor =>
      { status := 200
        contentType := some (jsTruthyOrElse virtualFileDescriptor.type
          (determineMimeTypeFromPath candidateVirtualFilePath))
        body := virtualFileDescriptor.content }

/-- `handleVirtualRequest` of `sw.js`, as a function of the current session
table and the request URL's pathname.  `pathnameSegments[2]` is modelled by
`getD 2 ""` (for a namespaced pathname index 2 always exists, and both the
missing and the empty segment are falsy in the source's guard). -/
def handleVirtualRequest (virtualFileSessions : SessionTable) (pathname : String) :
    Response :=
  let pathnameSegments := jsSplit pathname '/'
  let virtualFileSessionIdentifier := pathnameSegments.getD 2 ""
  let virtualFilePathSegments := pathnameSegments.drop 3
  if virtualFileSessionIdentifier = "" then
    createSessionNotFoundResponse
  else if isPingRequest virtualFilePathSegments then
    createPingResponse
  else
    let virtualFileStore := mapGet virtualFileSessions virtualFileSessionIdentifier
    if isListRequest virtualFilePathSegments then
      createListResponse virtualFileSessionIdentifier virtualFileStore
    else
      match virtualFileStore with
      | none => createSessionNotFoundResponse
      | some store =>
        let requestedVirtualFilePath :=
          buildRequestedVirtualFilePath virtualFilePathSegments
        respondWithFirstMatchingCandidate store
          [requestedVirtualFilePath, requestedVirtualFilePath ++ ".js"]
          requestedVirtualFilePath

/-- The data of one message on the `vfs` broadcast channel, as destructured
by the router's `onmessage` handler: `id := ""` models a missing or falsy
`id`, `files := none` models a missing or non-array `files` field. -/
structure BroadcastMessage where
  id : String
  files : Option (List VirtualFileDescriptor)

/-- The `virtualFileSystemBroadcastChannel.onmessage` handler of `sw.js`
as a state transition on the router's session table. -/
def onVirtualFileSystemMessage (virtualFileSessions : SessionTable)
    (messageData : BroadcastMessage) : SessionTable :=
  if messageData.id = "" then
    virtualFileSessions
  else
    match messageData.files with
    | none => virtualFileSessions
    | some virtualFileDescriptors =>
      if virtualFileDescriptors.length = 0 then
        virtualFileSessions
      else
        mapSet virtualFileSessions messageData.id
          (createVirtualFileStoreMap virtualFileDescriptors)

/-! ### `app-utils.ts` — the session publisher -/

namespace AppUtils

/-- `MIME_TYPE_BY_EXTENSION` of `app-utils.ts` (same table, own copy). -/
def MIME_TYPE_BY_EXTENSION : List (String × String) :=
  [(".js", "text/javascript"),
   (".mjs", "text/javascript"),
   (".json", "application/json"),
   (".css", "text/css"),
   (".html", "text/html")]

/-- `normalizeVirtualFilePath` of `app-utils.ts` (`raw || ""` is the
identity on strings). -/
def normalizeVirtualFilePath (rawVirtualFilePath : String) : String :=
  let trimmedLeadingSlashes := rawVirtualFilePath.data.dropWhile (fun c => c == '/')
  "/" ++ String.mk trimmedLeadingSlashes

/-- `determineMimeTypeForPath` of `app-utils.ts`: lower-cases the path
before the suffix test and returns the empty string on no match. -/
def determineMimeTypeForPath (virtualFilePath : String) : String :=
  let filePath := jsToLowerCase virtualFilePath
  match MIME_TYPE_BY_EXTENSION.find? (fun entry => jsEndsWith filePath entry.1) with
  | some entry => entry.2
  | none => ""

/-- The internal table built by `VirtualFileSession.mount`: every path is
normalized, the stored descriptor carries the normalized path, duplicate
normalized paths collapse to the last occurrence. -/
def mountVirtualFileStore (virtualFileDescriptors : List VirtualFileDescriptor) :
    VirtualFileStore :=
  virtualFileDescriptors.foldl
    (fun store fileDescriptor =>
      let normalizedVirtualFilePath := normalizeVirtualFilePath fileDescriptor.path
      mapSet store normalizedVirtualFilePath
        { fileDescriptor with path := normalizedVirtualFilePath })
    []

/-- The `files` array broadcast by `VirtualFileSession.mount`:
`Array.from(this.virtualFileStore.values())`. -/
def mountBroadcastFiles (virtualFileDescriptors : List VirtualFileDescriptor) :
    List VirtualFileDescriptor :=
  mapValues (mountVirtualFileStore virtualFileDescriptors)

/-- The message posted on the `vfs` channel by `VirtualFileSession.mount`. -/
def mountAnnouncement (sessionIdentifier : String)
    (virtualFileDescriptors : List VirtualFileDescriptor) : BroadcastMessage :=
  { id := sessionIdentifier, files := some (mountBroadcastFiles virtualFileDescriptors) }

end AppUtils

/-! ### Sample data used by the witness theorems -/

def sampleFiles : List VirtualFileDescriptor :=
  [VirtualFileDescriptor.mk "main.js" "console.log(1)" (some "text/javascript"),
   VirtualFileDescriptor.mk "util.js" "Y" (some ""),
   VirtualFileDescriptor.mk "index.js" "X" none]

def sampleStore : VirtualFileStore := createVirtualFileStoreMap sampleFiles

def sampleSessions : SessionTable := mapSet [] "s1" sampleStore

/-- Number of leading `/` characters of a string. -/
def leadingSlashCount (s : String) : Nat :=
  (s.data.takeWhile (fun c => c == '/')).length


/-! ### Helper lemmas: path normalization -/

lemma normalizeVirtualFilePath_data (s : String) :
    (normalizeVirtualFilePath s).data = '/' :: s.data.dropWhile (fun c => c == '/') := rfl

lemma takeWhile_dropWhile_nil {α : Type} (p : α → Bool) (l : List α) :
    (l.dropWhile p).takeWhile p = [] := by
  induction l with
  | nil => rfl
  | cons a t ih =>
    by_cases h : p a = true
    · rw [List.dropWhile_cons_of_pos h]
      exact ih
    · rw [List.dropWhile_cons_of_neg h]
      exact List.takeWhile_cons_of_neg h

lemma normalizeVirtualFilePath_idem (p : String) :
    normalizeVirtualFilePath (normalizeVirtualFilePath p) = normalizeVirtualFilePath p := by
  apply String.ext
  rw [normalizeVirtualFilePath_data, normalizeVirtualFilePath_data,
    List.dropWhile_cons_of_pos (by decide), List.dropWhile_idempotent]

lemma leadingSlashCount_normalizeVirtualFilePath (p : String) :
    leadingSlashCount (normalizeVirtualFilePath p) = 1 := by
  unfold leadingSlashCount
  rw [normalizeVirtualFilePath_data, List.takeWhile_cons_of_pos (by decide),
    takeWhile_dropWhile_nil]
  rfl

/-! ### Helper lemmas: the JS `Map` model -/

lemma mapGet_mapSet {α : Type} (m : List (String × α)) (k k' : String) (v : α) :
    mapGet (mapSet m k v) k' = if k' = k then some v else mapGet m k' := by
  induction m with
  | nil =>
    by_cases h : k' = k
    · subst h; simp [mapSet, mapGet]
    · simp [mapSet, mapGet, h, Ne.symm h]
  | cons hd tl ih =>
    by_cases h1 : hd.1 = k
    · by_cases h2 : k' = k
      · subst h2
        simp [mapSet, mapGet, h1]
      · have h3 : ¬ hd.1 = k' := by rw [h1]; exact Ne.symm h2
        simp [mapSet, mapGet, h1, h2, h3, Ne.symm h2]
    · by_cases h2 : hd.1 = k'
      · have hk : ¬ k' = k := fun hk => h1 (h2.trans hk)
        simp [mapSet, mapGet, h1, h2, hk]
      · simp [mapSet, mapGet, h1, h2, ih]

lemma mem_mapKeys_mapSet {α : Type} (m : List (String × α)) (k k' : String) (v : α) :
    k' ∈ mapKeys (mapSet m k v) ↔ k' = k ∨ k' ∈ mapKeys m := by
  induction m with
  | nil => simp [mapSet, mapKeys]
  | cons hd tl ih =>
    by_cases h1 : hd.1 = k
    · simp [mapSet, mapKeys, h1]
      try tauto
    · simp [mapSet, mapKeys, h1] at ih ⊢
      rw [ih]
      tauto

lemma mapSet_ne_nil {α : Type} (m : List (String × α)) (k : String) (v : α) :
    mapSet m k v ≠ [] := by
  cases m with
  | nil => simp [mapSet]
  | cons hd tl =>
    by_cases h : hd.1 = k <;> simp [mapSet, h]

lemma mapSet_entry_invariant {α : Type} (P : String × α → Prop)
    (m : List (String × α)) (k : String) (v : α)
    (hm : ∀ kv ∈ m, P kv) (hkv : P (k, v)) :
    ∀ kv ∈ mapSet m k v, P kv := by
  induction m with
  | nil =>
    intro kv hmem
    simp [mapSet] at hmem
    subst hmem
    exact hkv
  | cons hd tl ih =>
    intro kv hmem
    by_cases h : hd.1 = k
    · simp only [mapSet] at hmem
      rw [if_pos (by simp [h])] at hmem
      rcases List.mem_cons.mp hmem with h' | h'
      · subst h'; exact hkv
      · exact hm kv (List.mem_cons_of_mem hd h')
    · simp only [mapSet] at hmem
      rw [if_neg (by simp [h])] at hmem
      rcases List.mem_cons.mp hmem with h' | h'
      · subst h'; exact hm kv (List.mem_cons_self kv tl)
      · exact ih (fun kv' hkv' => hm kv' (List.mem_cons_of_mem hd hkv')) kv h'

lemma exists_pair_of_mem_mapKeys {α : Type} (m : List (String × α)) (k : String)
    (h : k ∈ mapKeys m) : ∃ v, (k, v) ∈ m := by
  unfold mapKeys at h
  rcases List.mem_map.mp h with ⟨kv, hkv, hfst⟩
  refine ⟨kv.2, ?_⟩
  rw [← hfst]
  simpa using hkv

lemma mem_mapValues {α : Type} (m : List (String × α)) (v : α) :
    v ∈ mapValues m ↔ ∃ kv ∈ m, kv.2 = v := by
  unfold mapValues
  exact List.mem_map

/-! ### Helper lemmas: file-table construction -/

lemma mem_mapKeys_createVirtualFileStoreMap_aux :
    ∀ (fs : List VirtualFileDescriptor) (m : VirtualFileStore) (k : String),
      (k ∈ mapKeys (List.foldl
          (fun virtualFileStoreMap fileDescriptor =>
            mapSet virtualFileStoreMap
              (normalizeVirtualFilePath fileDescriptor.path) fileDescriptor)
          m fs)) ↔
        k ∈ mapKeys m ∨ ∃ fd ∈ fs, normalizeVirtualFilePath fd.path = k := by
  intro fs
  induction fs with
  | nil => simp
  | cons fd rest ih =>
    intro m k
    rw [List.foldl_cons, ih, mem_mapKeys_mapSet]
    simp only [List.mem_cons]
    constructor
    · rintro ((h | h) | h)
      · exact Or.inr ⟨fd, Or.inl rfl, h.symm⟩
      · exact Or.inl h
      · rcases h with ⟨fd', hmem, heq⟩
        exact Or.inr ⟨fd', Or.inr hmem, heq⟩
    · rintro (h | ⟨fd', hmem | hmem, heq⟩)
      · exact Or.inl (Or.inr h)
      · subst hmem
        exact Or.inl (Or.inl heq.symm)
      · exact Or.inr ⟨fd', hmem, heq⟩

lemma mem_mapKeys_createVirtualFileStoreMap (fs : List VirtualFileDescriptor) (k : String) :
    k ∈ mapKeys (createVirtualFileStoreMap fs) ↔
      ∃ fd ∈ fs, normalizeVirtualFilePath fd.path = k := by
  have h := mem_mapKeys_createVirtualFileStoreMap_aux fs [] k
  simpa [createVirtualFileStoreMap, mapKeys] using h

lemma mem_mapKeys_mountVirtualFileStore_aux :
    ∀ (fs : List VirtualFileDescriptor) (m : VirtualFileStore) (k : String),
      (k ∈ mapKeys (List.foldl
          (fun store fileDescriptor =>
            let normalizedVirtualFilePath :=
              AppUtils.normalizeVirtualFilePath fileDescriptor.path
            mapSet store normalizedVirtualFilePath
              { fileDescriptor with path := normalizedVirtualFilePath })
          m fs)) ↔
        k ∈ mapKeys m ∨ ∃ fd ∈ fs, AppUtils.normalizeVirtualFilePath fd.path = k := by
  intro fs
  induction fs with
  | nil => simp
  | cons fd rest ih =>
    intro m k
    rw [List.foldl_cons, ih, mem_mapKeys_mapSet]
    simp only [List.mem_cons]
    constructor
    · rintro ((h | h) | h)
      · exact Or.inr ⟨fd, Or.inl rfl, h.symm⟩
      · exact Or.inl h
      · rcases h with ⟨fd', hmem, heq⟩
        exact Or.inr ⟨fd', Or.inr hmem, heq⟩
    · rintro (h | ⟨fd', hmem | hmem, heq⟩)
      · exact Or.inl (Or.inr h)
      · subst hmem
        exact Or.inl (Or.inl heq.symm)
      · exact Or.inr ⟨fd', hmem, heq⟩

lemma mem_mapKeys_mountVirtualFileStore (fs : List VirtualFileDescriptor) (k : String) :
    k ∈ mapKeys (AppUtils.mountVirtualFileStore fs) ↔
      ∃ fd ∈ fs, AppUtils.normalizeVirtualFilePath fd.path = k := by
  have h := mem_mapKeys_mountVirtualFileStore_aux fs [] k
  simpa [AppUtils.mountVirtualFileStore, mapKeys] using h

lemma mountVirtualFileStore_entry_spec (B : List VirtualFileDescriptor) :
    ∀ kv ∈ AppUtils.mountVirtualFileStore B,
      kv.2.path = kv.1 ∧ ∃ fd ∈ B, AppUtils.normalizeVirtualFilePath fd.path = kv.1 := by
  have aux :
      ∀ (fs : List VirtualFileDescriptor) (m : VirtualFileStore),
        (∀ fd ∈ fs, fd ∈ B) →
        (∀ kv ∈ m, kv.2.path = kv.1 ∧
          ∃ fd ∈ B, AppUtils.normalizeVirtualFilePath fd.path = kv.1) →
        ∀ kv ∈ (List.foldl
            (fun store fileDescriptor =>
              let normalizedVirtualFilePath :=
                AppUtils.normalizeVirtualFilePath fileDescriptor.path
              mapSet store normalizedVirtualFilePath
                { fileDescriptor with path := normalizedVirtualFilePath })
            m fs),
          kv.2.path = kv.1 ∧
            ∃ fd ∈ B, AppUtils.normalizeVirtualFilePath fd.path = kv.1 := by
    intro fs
    induction fs with
    | nil => intro m _ hmInv; simpa using hmInv
    | cons fd rest ih =>
      intro m hsub hmInv
      rw [List.foldl_cons]
      refine ih _ (fun fd' hfd' => hsub fd' (List.mem_cons_of_mem fd hfd')) ?_
      refine mapSet_entry_invariant _ m _ _ hmInv ?_
      exact ⟨rfl, fd, hsub fd (List.mem_cons_self fd rest), rfl⟩
  exact aux B [] (fun _ h => h) (by simp)

lemma foldl_mapSet_mount_ne_nil :
    ∀ (fs : List VirtualFileDescriptor) (m : VirtualFileStore), m ≠ [] →
      (List.foldl
        (fun store fileDescriptor =>
          let normalizedVirtualFilePath :=
            AppUtils.normalizeVirtualFilePath fileDescriptor.path
          mapSet store normalizedVirtualFilePath
            { fileDescriptor with path := normalizedVirtualFilePath })
        m fs) ≠ [] := by
  intro fs
  induction fs with
  | nil => intro m hm; simpa using hm
  | cons fd rest ih =>
    intro m _
    rw [List.foldl_cons]
    exact ih _ (mapSet_ne_nil _ _ _)

lemma mountBroadcastFiles_ne_nil (B : List VirtualFileDescriptor) (hB : B ≠ []) :
    AppUtils.mountBroadcastFiles B ≠ [] := by
  unfold AppUtils.mountBroadcastFiles mapValues
  rw [ne_eq, List.map_eq_nil_iff]
  unfold AppUtils.mountVirtualFileStore
  cases B with
  | nil => exact absurd rfl hB
  | cons fd rest =>
    rw [List.foldl_cons]
    exact foldl_mapSet_mount_ne_nil rest _ (mapSet_ne_nil _ _ _)

lemma appUtils_normalizeVirtualFilePath_eq (p : String) :
    AppUtils.normalizeVirtualFilePath p = normalizeVirtualFilePath p := rfl

lemma mem_mapKeys_router_after_mount (B : List VirtualFileDescriptor) (k : String) :
    k ∈ mapKeys (createVirtualFileStoreMap (AppUtils.mountBroadcastFiles B)) ↔
      ∃ fd ∈ B, normalizeVirtualFilePath fd.path = k := by
  rw [mem_mapKeys_createVirtualFileStoreMap]
  constructor
  · rintro ⟨v, hv, hnorm⟩
    rcases (mem_mapValues _ _).mp hv with ⟨kv, hkv, hsnd⟩
    rcases mountVirtualFileStore_entry_spec B kv hkv with ⟨hpath, fd, hfd, hkey⟩
    refine ⟨fd, hfd, ?_⟩
    rw [appUtils_normalizeVirtualFilePath_eq] at hkey
    rw [← hnorm, ← hsnd, hpath, ← hkey, normalizeVirtualFilePath_idem]
  · rintro ⟨fd, hfd, hkey⟩
    have hk1 : AppUtils.normalizeVirtualFilePath fd.path ∈
        mapKeys (AppUtils.mountVirtualFileStore B) :=
      (mem_mapKeys_mountVirtualFileStore B _).mpr ⟨fd, hfd, rfl⟩
    rcases exists_pair_of_mem_mapKeys _ _ hk1 with ⟨v, hv⟩
    have hval : v ∈ AppUtils.mountBroadcastFiles B :=
      (mem_mapValues _ _).mpr ⟨_, hv, rfl⟩
    rcases mountVirtualFileStore_entry_spec B _ hv with ⟨hpath, _⟩
    refine ⟨v, hval, ?_⟩
    rw [hpath]
    rw [appUtils_normalizeVirtualFilePath_eq, normalizeVirtualFilePath_idem]
    rw [← appUtils_normalizeVirtualFilePath_eq]
    rw [appUtils_normalizeVirtualFilePath_eq]
    exact hkey

lemma onVirtualFileSystemMessage_mount (sessions : SessionTable) (sessionId : String)
    (B : List VirtualFileDescriptor) (hid : sessionId ≠ "") (hB : B ≠ []) :
    onVirtualFileSystemMessage sessions (AppUtils.mountAnnouncement sessionId B) =
      mapSet sessions sessionId
        (createVirtualFileStoreMap (AppUtils.mountBroadcastFiles B)) := by
  have hne : AppUtils.mountBroadcastFiles B ≠ [] := mountBroadcastFiles_ne_nil B hB
  have hlen : ¬ (AppUtils.mountBroadcastFiles B).length = 0 := by
    rw [List.length_eq_zero]
    exact hne
  simp [onVirtualFileSystemMessage, AppUtils.mountAnnouncement, hid, hlen]

/-! ### Helper lemmas: request resolution -/

lemma respondWithFirstMatchingCandidate_status (store : VirtualFileStore)
    (candidates : List String) (requested : String) :
    (respondWithFirstMatchingCandidate store candidates requested).status = 200 ∨
      (respondWithFirstMatchingCandidate store candidates requested).status = 404 := by
  induction candidates with
  | nil => right; rfl
  | cons c rest ih =>
    cases hg : mapGet store c with
    | none => simpa [respondWithFirstMatchingCandidate, hg] using ih
    | some fd => left; simp [respondWithFirstMatchingCandidate, hg]

lemma handleVirtualRequest_file_lookup_eq
    (sessions : SessionTable) (pathname sessionId : String)
    (tailSegments : List String) (store : VirtualFileStore)
    (hsid : (jsSplit pathname '/').getD 2 "" = sessionId)
    (htail : (jsSplit pathname '/').drop 3 = tailSegments)
    (hid : sessionId ≠ "")
    (hping : isPingRequest tailSegments = false)
    (hlist : isListRequest tailSegments = false)
    (hstore : mapGet sessions sessionId = some store) :
    handleVirtualRequest sessions pathname =
      respondWithFirstMatchingCandidate store
        [buildRequestedVirtualFilePath tailSegments,
         buildRequestedVirtualFilePath tailSegments ++ ".js"]
        (buildRequestedVirtualFilePath tailSegments) := by
  simp only [handleVirtualRequest]
  rw [hsid, htail, hstore, if_neg hid, hping, hlist]
  simp

/-! ### Claim theorems -/

/-- C6: `normalizeVirtualFilePath` strips all leading slashes and prepends
exactly one `/` (first conjunct states the strip-and-prepend shape, second
that the result always starts with exactly one `/`), it is idempotent, the
empty string (which also models a missing input, since `raw || ""` maps it
to `""`) normalizes to `/`, and the publishing-side copy in `app-utils.ts`
is the same function. -/
theorem normalizeVirtualFilePath_spec :
    (∀ p, (normalizeVirtualFilePath p).data =
      '/' :: p.data.dropWhile (fun c => c == '/')) ∧
    (∀ p, leadingSlashCount (normalizeVirtualFilePath p) = 1) ∧
    (∀ p, normalizeVirtualFilePath (normalizeVirtualFilePath p) =
      normalizeVirtualFilePath p) ∧
    normalizeVirtualFilePath "" = "/" ∧
    (∀ p, AppUtils.normalizeVirtualFilePath p = normalizeVirtualFilePath p) :=
  ⟨normalizeVirtualFilePath_data, leadingSlashCount_normalizeVirtualFilePath,
    normalizeVirtualFilePath_idem, by decide, appUtils_normalizeVirtualFilePath_eq⟩

/-- C9: an announcement whose `files` field is an array of length zero is
discarded — the router's session table is left completely unchanged, for
every prior state and session id; in particular re-mounting an existing
session with an empty file list (second conjunct, going through the
publisher's `mount`) does not clear or replace its stored table. -/
theorem onVirtualFileSystemMessage_empty_files :
    (∀ (sessions : SessionTable) (sessionId : String),
      onVirtualFileSystemMessage sessions (BroadcastMessage.mk sessionId (some [])) =
        sessions) ∧
    (∀ (sessions : SessionTable) (sessionId : String),
      onVirtualFileSystemMessage sessions (AppUtils.mountAnnouncement sessionId []) =
        sessions) := by
  constructor
  · intro sessions sessionId
    by_cases h : sessionId = "" <;> simp [onVirtualFileSystemMessage, h]
  · intro sessions sessionId
    by_cases h : sessionId = "" <;>
      simp [onVirtualFileSystemMessage, AppUtils.mountAnnouncement,
        AppUtils.mountBroadcastFiles, AppUtils.mountVirtualFileStore, mapValues, h]

/-- C10: a namespaced request whose first path segment after the reserved
prefix is empty is answered `404` with the session-not-found body before
ping or list handling (the tail segments are unconstrained, so this covers
`/virtual//__ping` and `/virtual//__list`). -/
theorem handleVirtualRequest_empty_sessionId
    (sessions : SessionTable) (pathname : String)
    (hns : isVirtualNamespacePath pathname = true)
    (hsid : (jsSplit pathname '/').getD 2 "" = "") :
    handleVirtualRequest sessions pathname = Response.mk 404 none "Session not found" := by
  simp only [handleVirtualRequest]
  rw [hsid]
  simp [createSessionNotFoundResponse, SERVICE_WORKER_CONSTANTS]

/-- C10 witness: `/virtual//__ping` (tail exactly the ping token) is
answered `404 "Session not found"`, not `200 "ok"`. -/
theorem handleVirtualRequest_empty_sessionId_witness :
    handleVirtualRequest sampleSessions "/virtual//__ping" =
      Response.mk 404 none "Session not found" :=
  handleVirtualRequest_empty_sessionId sampleSessions "/virtual//__ping"
    (by decide) (by decide)

/-- C4 counterexample: the namespaced request `/virtual//__ping` has tail
segments exactly `["__ping"]`, yet the router answers `404 "Session not
found"` instead of `200 "ok"`: the empty sessionId segment is rejected
before the ping check. -/
theorem ping_with_empty_sessionId_is_404 :
    isVirtualNamespacePath "/virtual//__ping" = true ∧
    (jsSplit "/virtual//__ping" '/').drop 3 = ["__ping"] ∧
    handleVirtualRequest [] "/virtual//__ping" =
      Response.mk 404 none "Session not found" :=
  ⟨by decide, by decide, by decide⟩

/-- C4 (amended): for every namespaced request whose sessionId segment is
**non-empty** and whose tail segments are exactly `["__ping"]`, the router
responds `200 text/plain "ok"` for every session table — in particular
when no session is registered under that id. -/
theorem handleVirtualRequest_ping
    (sessions : SessionTable) (pathname sessionId : String)
    (hns : isVirtualNamespacePath pathname = true)
    (hsid : (jsSplit pathname '/').getD 2 "" = sessionId)
    (hid : sessionId ≠ "")
    (htail : (jsSplit pathname '/').drop 3 = ["__ping"]) :
    handleVirtualRequest sessions pathname =
      Response.mk 200 (some "text/plain") "ok" := by
  simp only [handleVirtualRequest]
  rw [hsid, htail, if_neg hid]
  rw [if_pos (by decide : isPingRequest ["__ping"] = true)]
  decide

/-- C4 witness: `__ping` under the unregistered session id `ghost` still
answers `200 "ok"`. -/
theorem handleVirtualRequest_ping_witness :
    handleVirtualRequest sampleSessions "/virtual/ghost/__ping" =
      Response.mk 200 (some "text/plain") "ok" ∧
    mapGet sampleSessions "ghost" = none :=
  ⟨handleVirtualRequest_ping sampleSessions "/virtual/ghost/__ping" "ghost"
    (by decide) (by decide) (by decide) (by decide), by decide⟩

/-- C5 counterexample: the namespaced request `/virtual//__list` has tail
segments exactly `["__list"]`, yet the router answers `404`, contradicting
the claim that list requests never 404: the empty sessionId segment is
rejected before the list check. -/
theorem list_with_empty_sessionId_is_404 :
    isVirtualNamespacePath "/virtual//__list" = true ∧
    (jsSplit "/virtual//__list" '/').drop 3 = ["__list"] ∧
    handleVirtualRequest [] "/virtual//__list" =
      Response.mk 404 none "Session not found" :=
  ⟨by decide, by decide, by decide⟩

/-- C5 (amended): for every namespaced request whose sessionId segment is
**non-empty** and whose tail segments are exactly `["__list"]`, the router
responds `200 application/json` with the serialized payload carrying the
session id, the key count and exactly the paths of that session's current
table — and an empty key list with count 0 (not a 404) when the session is
unknown. -/
theorem handleVirtualRequest_list
    (sessions : SessionTable) (pathname sessionId : String)
    (hns : isVirtualNamespacePath pathname = true)
    (hsid : (jsSplit pathname '/').getD 2 "" = sessionId)
    (hid : sessionId ≠ "")
    (htail : (jsSplit pathname '/').drop 3 = ["__list"]) :
    handleVirtualRequest sessions pathname =
      Response.mk 200 (some "application/json")
        (jsonStringifyListPayload sessionId
          (match mapGet sessions sessionId with
            | some store => (mapKeys store).length
            | none => 0)
          (match mapGet sessions sessionId with
            | some store => mapKeys store
            | none => [])) := by
  simp only [handleVirtualRequest]
  rw [hsid, htail, if_neg hid]
  rw [if_neg (by decide : ¬ isPingRequest ["__list"] = true)]
  rw [if_pos (by decide : isListRequest ["__list"] = true)]
  cases h : mapGet sessions sessionId with
  | none => simp [createListResponse, h, SERVICE_WORKER_CONSTANTS]
  | some store => simp [createListResponse, h, SERVICE_WORKER_CONSTANTS]

/-- C5 witness: `__list` for the registered session `s1` reports exactly the
three mounted normalized paths; the instantiated payload is evaluated. -/
theorem handleVirtualRequest_list_witness :
    handleVirtualRequest sampleSessions "/virtual/s1/__list" =
      Response.mk 200 (some "application/json")
        (jsonStringifyListPayload "s1" 3 ["/main.js", "/util.js", "/index.js"]) :=
  (handleVirtualRequest_list sampleSessions "/virtual/s1/__list" "s1"
    (by decide) (by decide) (by decide) (by decide)).trans (by decide)

/-- C7 counterexample: at path `"a.JS"` the publishing-side inference
lower-cases first and matches the `.js` entry (`text/javascript`) while the
serving-side inference matches no entry and returns its `text/plain`
default — the two sides do not match the same extension entry, and the
disagreement is not the permitted pair of no-match defaults. -/
theorem mime_inference_case_mismatch :
    AppUtils.determineMimeTypeForPath "a.JS" = "text/javascript" ∧
    determineMimeTypeFromPath "a.JS" = "text/plain" ∧
    ¬ (AppUtils.determineMimeTypeForPath "a.JS" = determineMimeTypeFromPath "a.JS" ∨
        (determineMimeTypeFromPath "a.JS" = "text/plain" ∧
          AppUtils.determineMimeTypeForPath "a.JS" = "")) := by
  decide

/-- C7 (amended): the two MIME inferences apply different case handling —
the publishing side lower-cases the path first, the serving side matches
case-sensitively — so they agree only on paths that lower-casing leaves
unchanged: for such paths either both sides match the same extension entry
(equal results) or neither matches and each returns its own no-match
default (`text/plain` on the serving side, `""` on the publishing side). -/
theorem mime_inference_consistent_on_lowercase (p : String)
    (h : jsToLowerCase p = p) :
    AppUtils.determineMimeTypeForPath p = determineMimeTypeFromPath p ∨
      (determineMimeTypeFromPath p = "text/plain" ∧
        AppUtils.determineMimeTypeForPath p = "") := by
  have htab : AppUtils.MIME_TYPE_BY_EXTENSION = MIME_TYPE_BY_EXTENSION := rfl
  simp only [AppUtils.determineMimeTypeForPath, determineMimeTypeFromPath, htab]
  rw [h]
  cases hfind : MIME_TYPE_BY_EXTENSION.find? (fun entry => jsEndsWith p entry.1) with
  | none => right; exact ⟨rfl, rfl⟩
  | some entry => left; rfl

/-- C7 witness: on the all-lowercase path `"style.css"` the two sides
agree (both match the `.css` entry). -/
theorem mime_inference_consistent_on_lowercase_witness :
    AppUtils.determineMimeTypeForPath "style.css" =
        determineMimeTypeFromPath "style.css" ∨
      (determineMimeTypeFromPath "style.css" = "text/plain" ∧
        AppUtils.determineMimeTypeForPath "style.css" = "") :=
  mime_inference_consistent_on_lowercase "style.css" (by decide)

lemma respondWith_two_candidates (store : VirtualFileStore) (r : String) :
    respondWithFirstMatchingCandidate store [r, r ++ ".js"] r =
      (match mapGet store r with
        | some fd =>
          Response.mk 200
            (some (jsTruthyOrElse fd.type (determineMimeTypeFromPath r))) fd.content
        | none =>
          match mapGet store (r ++ ".js") with
          | some fd =>
            Response.mk 200
              (some (jsTruthyOrElse fd.type (determineMimeTypeFromPath (r ++ ".js"))))
              fd.content
          | none => Response.mk 404 none (buildNotFoundMessage r)) := by
  cases h1 : mapGet store r with
  | some fd => simp [respondWithFirstMatchingCandidate, h1]
  | none =>
    cases h2 : mapGet store (r ++ ".js") with
    | some fd => simp [respondWithFirstMatchingCandidate, h1, h2]
    | none => simp [respondWithFirstMatchingCandidate, h1, h2]

lemma buildRequestedVirtualFilePath_eq (tailSegments : List String) :
    buildRequestedVirtualFilePath tailSegments =
      (if jsEndsWith ("/" ++ jsJoin "/" tailSegments) "/" = true
        then ("/" ++ jsJoin "/" tailSegments) ++ "index.js"
        else "/" ++ jsJoin "/" tailSegments) := by
  simp only [buildRequestedVirtualFilePath]
  cases h : jsEndsWith ("/" ++ jsJoin "/" tailSegments) "/" <;>
    simp [h, SERVICE_WORKER_CONSTANTS]

/-- C1: for every namespaced file-lookup request (neither ping nor list)
with a non-empty sessionId segment owning a registered session, the router
reconstructs the requested path as `/` plus the tail segments joined by
`/`, appends `index.js` when that path ends in `/`, then tries exactly two
candidates in order — the reconstructed path itself, then the path with a
`.js` suffix appended — against the session's file table, serving the first
match and answering 404 otherwise. -/
theorem handleVirtualRequest_file_lookup
    (sessions : SessionTable) (pathname sessionId : String)
    (tailSegments : List String) (store : VirtualFileStore)
    (hns : isVirtualNamespacePath pathname = true)
    (hsid : (jsSplit pathname '/').getD 2 "" = sessionId)
    (htail : (jsSplit pathname '/').drop 3 = tailSegments)
    (hid : sessionId ≠ "")
    (hping : isPingRequest tailSegments = false)
    (hlist : isListRequest tailSegments = false)
    (hstore : mapGet sessions sessionId = some store) :
    handleVirtualRequest sessions pathname =
      (let joinedPath := "/" ++ jsJoin "/" tailSegments
       let requestedPath :=
         if jsEndsWith joinedPath "/" = true then joinedPath ++ "index.js" else joinedPath
       match mapGet store requestedPath with
       | some fd =>
         Response.mk 200
           (some (jsTruthyOrElse fd.type (determineMimeTypeFromPath requestedPath)))
           fd.content
       | none =>
         match mapGet store (requestedPath ++ ".js") with
         | some fd =>
           Response.mk 200
             (some (jsTruthyOrElse fd.type
               (determineMimeTypeFromPath (requestedPath ++ ".js"))))
             fd.content
         | none => Response.mk 404 none ("Not found: " ++ requestedPath)) := by
  rw [handleVirtualRequest_file_lookup_eq sessions pathname sessionId tailSegments store
    hsid htail hid hping hlist hstore]
  rw [respondWith_two_candidates store (buildRequestedVirtualFilePath tailSegments)]
  simp only [buildRequestedVirtualFilePath_eq tailSegments]
  rfl

/-- C1 witness: requesting `/virtual/s1/util` against the sample session
tries `/util` first (a miss) and then serves the `.js`-suffixed candidate
`/util.js`. -/
theorem handleVirtualRequest_file_lookup_witness :
    handleVirtualRequest sampleSessions "/virtual/s1/util" =
      Response.mk 200 (some "text/javascript") "Y" :=
  (handleVirtualRequest_file_lookup sampleSessions "/virtual/s1/util" "s1" ["util"]
    sampleStore (by decide) (by decide) (by decide) (by decide) (by decide)
    (by decide) (by decide)).trans (by decide)

/-- C2: for every matched file-lookup request the router responds with
status 200, body equal to the stored file's content, and a Content-Type
equal to the file's declared `type` when that field is present and
non-empty (the source's truthiness test), else the MIME inference applied
to the matched candidate path — the `.js`-suffixed path when that is the
candidate that matched. -/
theorem handleVirtualRequest_match_response
    (sessions : SessionTable) (pathname sessionId : String)
    (tailSegments : List String) (store : VirtualFileStore)
    (candidate : String) (fd : VirtualFileDescriptor)
    (hns : isVirtualNamespacePath pathname = true)
    (hsid : (jsSplit pathname '/').getD 2 "" = sessionId)
    (htail : (jsSplit pathname '/').drop 3 = tailSegments)
    (hid : sessionId ≠ "")
    (hping : isPingRequest tailSegments = false)
    (hlist : isListRequest tailSegments = false)
    (hstore : mapGet sessions sessionId = some store)
    (hcand : (candidate = buildRequestedVirtualFilePath tailSegments ∧
        mapGet store candidate = some fd) ∨
      (candidate = buildRequestedVirtualFilePath tailSegments ++ ".js" ∧
        mapGet store (buildRequestedVirtualFilePath tailSegments) = none ∧
        mapGet store candidate = some fd)) :
    handleVirtualRequest sessions pathname =
      Response.mk 200
        (some (match fd.type with
          | some declaredType =>
            if declaredType = "" then determineMimeTypeFromPath candidate
            else declaredType
          | none => determineMimeTypeFromPath candidate))
        fd.content := by
  rw [handleVirtualRequest_file_lookup_eq sessions pathname sessionId tailSegments store
    hsid htail hid hping hlist hstore]
  rcases hcand with ⟨hceq, hget⟩ | ⟨hceq, hnone, hget⟩
  · subst hceq
    simp [respondWithFirstMatchingCandidate, hget, jsTruthyOrElse]
  · subst hceq
    simp [respondWithFirstMatchingCandidate, hnone, hget, jsTruthyOrElse]

/-- C2 witness: requesting `/virtual/s1/` serves `/index.js` (the
directory-index fallback); its descriptor declares no type, so the
Content-Type is inferred from the matched candidate `/index.js`. -/
theorem handleVirtualRequest_match_response_witness :
    handleVirtualRequest sampleSessions "/virtual/s1/" =
      Response.mk 200 (some "text/javascript") "X" :=
  (handleVirtualRequest_match_response sampleSessions "/virtual/s1/" "s1" [""]
    sampleStore "/index.js" (VirtualFileDescriptor.mk "index.js" "X" none)
    (by decide) (by decide) (by decide) (by decide) (by decide) (by decide)
    (by decide) (Or.inl ⟨by decide, by decide⟩)).trans (by decide)

/-- C8: handling of a namespaced request is total — the response status is
always 200 or 404; a file-lookup request (non-ping, non-list, non-empty
sessionId) for an unknown session is answered `404 "Session not found"`,
and when both candidates miss it is answered 404 with a body naming the
originally reconstructed path. -/
theorem handleVirtualRequest_total
    (sessions : SessionTable) (pathname : String)
    (hns : isVirtualNamespacePath pathname = true) :
    ((handleVirtualRequest sessions pathname).status = 200 ∨
      (handleVirtualRequest sessions pathname).status = 404) ∧
    (∀ sessionId tailSegments,
      (jsSplit pathname '/').getD 2 "" = sessionId →
      (jsSplit pathname '/').drop 3 = tailSegments →
      sessionId ≠ "" →
      isPingRequest tailSegments = false →
      isListRequest tailSegments = false →
      (mapGet sessions sessionId = none →
        handleVirtualRequest sessions pathname =
          Response.mk 404 none "Session not found") ∧
      (∀ store, mapGet sessions sessionId = some store →
        mapGet store (buildRequestedVirtualFilePath tailSegments) = none →
        mapGet store (buildRequestedVirtualFilePath tailSegments ++ ".js") = none →
        handleVirtualRequest sessions pathname =
          Response.mk 404 none
            ("Not found: " ++ buildRequestedVirtualFilePath tailSegments))) := by
  constructor
  · simp only [handleVirtualRequest]
    split
    · right; rfl
    · split
      · left; rfl
      · split
        · left; rfl
        · split
          · right; rfl
          · exact respondWithFirstMatchingCandidate_status _ _ _
  · intro sessionId tailSegments hsid htail hid hping hlist
    constructor
    · intro hnone
      simp only [handleVirtualRequest]
      rw [hsid, htail, hnone, if_neg hid, hping, hlist]
      simp [createSessionNotFoundResponse, SERVICE_WORKER_CONSTANTS]
    · intro store hstore h1 h2
      rw [handleVirtualRequest_file_lookup_eq sessions pathname sessionId tailSegments
        store hsid htail hid hping hlist hstore]
      simp [respondWithFirstMatchingCandidate, h1, h2, buildNotFoundMessage,
        SERVICE_WORKER_CONSTANTS]

/-- C8 witness: a lookup under the unregistered id `ghost` is answered
`404 "Session not found"`, not passed through. -/
theorem handleVirtualRequest_total_witness :
    handleVirtualRequest sampleSessions "/virtual/ghost/app.js" =
      Response.mk 404 none "Session not found" :=
  ((handleVirtualRequest_total sampleSessions "/virtual/ghost/app.js" (by decide)).2
    "ghost" ["app.js"] (by decide) (by decide) (by decide) (by decide) (by decide)).1
    (by decide)

/-- C3 counterexample: mounting session `s` with `A = [a.js]` and then
re-mounting with the empty list `B = []` leaves `A`'s entry visible — the
zero-file announcement is discarded rather than replacing the table, so the
table is not "exactly `B`'s normalized paths". -/
theorem mount_remount_empty_residue :
    mapGet
        (onVirtualFileSystemMessage
          (onVirtualFileSystemMessage []
            (AppUtils.mountAnnouncement "s" [VirtualFileDescriptor.mk "a.js" "x" none]))
          (AppUtils.mountAnnouncement "s" []))
        "s" =
      some [("/a.js", VirtualFileDescriptor.mk "/a.js" "x" none)] := by
  decide

/-- C3 (amended): mounting session `S` with `A` and then re-mounting with a
**non-empty** `B` leaves the router's table for `S` exactly the table built
from `B`'s broadcast — a single whole-table replacement whose key set is
precisely the normalized paths of `B`'s entries, with no residue from `A`
and no dependence on the prior state (an empty `B` is discarded by the
router and leaves the previous table in place, see the counterexample). -/
theorem mount_remount_replaces_table
    (sessions : SessionTable) (sessionId : String)
    (A B : List VirtualFileDescriptor)
    (hid : sessionId ≠ "") (hB : B ≠ []) :
    mapGet
        (onVirtualFileSystemMessage
          (onVirtualFileSystemMessage sessions (AppUtils.mountAnnouncement sessionId A))
          (AppUtils.mountAnnouncement sessionId B))
        sessionId =
      some (createVirtualFileStoreMap (AppUtils.mountBroadcastFiles B)) ∧
    (∀ k, k ∈ mapKeys (createVirtualFileStoreMap (AppUtils.mountBroadcastFiles B)) ↔
      ∃ fd ∈ B, normalizeVirtualFilePath fd.path = k) := by
  constructor
  · rw [onVirtualFileSystemMessage_mount _ sessionId B hid hB]
    rw [mapGet_mapSet]
    simp
  · exact fun k => mem_mapKeys_router_after_mount B k

/-- C3 witness: mounting `[a.js]` then `[b.js]` leaves the table for `s`
exactly the table built from `[b.js]`. -/
theorem mount_remount_replaces_table_witness :
    mapGet
        (onVirtualFileSystemMessage
          (onVirtualFileSystemMessage []
            (AppUtils.mountAnnouncement "s" [VirtualFileDescriptor.mk "a.js" "x" none]))
          (AppUtils.mountAnnouncement "s" [VirtualFileDescriptor.mk "b.js" "y" none]))
        "s" =
      some (createVirtualFileStoreMap
        (AppUtils.mountBroadcastFiles [VirtualFileDescriptor.mk "b.js" "y" none])) :=
  (mount_remount_replaces_table [] "s" [VirtualFileDescriptor.mk "a.js" "x" none]
    [VirtualFileDescriptor.mk "b.js" "y" none] (by decide) (by decide)).1
